import Mathlib

/-!
Verification of the constraint encoding and decoding layer of the
college timetable generator (`new_timetable_generator.py`).

The embedding models:
* the decision variables created by `create_decision_variables`,
* the constraint set emitted by `add_constraints` (seven families), as a
  deep list of linear/implication constraints over boolean variables,
  together with an evaluator giving the CP-SAT semantics (including
  `OnlyEnforceIf` enforcement literals),
* the status dispatch of `solve_timetable`,
* the per-cell decoding of `extract_solution`.

The fixed run configuration of the script: 5 days, 7 slots per day,
2 divisions, batches P, Q, R.
-/

namespace Timetable

/-- Subject record: `self.subjects[name]` in the script
(`theory_per_week`, `practical_per_week`, `preferred_labs`). -/
structure SubjectInfo where
  theory_per_week : Nat
  practical_per_week : Nat
  preferred_labs : List String
deriving DecidableEq, Repr

/-- A problem instance: the data the generator works from after input
collection (`self.subjects`, `self.teachers` with their subject lists,
`self.labs`, `self.subject_teacher_mapping`).  Association lists model
the (insertion ordered) Python dicts. -/
structure Problem where
  subjects : List (String × SubjectInfo)
  teachers : List (String × List String)
  labs : List String
  subject_teacher_mapping : List (String × String)
deriving DecidableEq, Repr

/-- `self.batches = ["P", "Q", "R"]`. -/
def batches : List String := ["P", "Q", "R"]

/-- Boolean decision variables of the model.  `theoryV`/`practicalV` are the
`schedule_vars` entries, `teacherV` the `teacher_schedule` indicators, and the
remaining constructors are the auxiliary indicator variables created inside
`add_constraints` (`practical_indicator_…`, `div_a_has_practical_…`, …,
`batch_…_scheduled_…`), keyed exactly by the parameters appearing in the
Python variable names. -/
inductive Var where
  | theoryV (day slot div : Nat) (subject : String)
  | practicalV (day slot div : Nat) (subject batch lab : String)
  | teacherV (teacher : String) (day slot : Nat)
  | practicalIndicator (subject : String) (div day slot : Nat)
  | divAPrac (day slot : Nat)
  | divBPrac (day slot : Nat)
  | divATheory (day slot : Nat)
  | divBTheory (day slot : Nat)
  | batchScheduled (batch : String) (day slot div : Nat) (subject : String)
deriving DecidableEq, Repr

/-- Comparison operator of a linear constraint (`model.Add(expr <= b)` etc.). -/
inductive Cmp where
  | le
  | ge
  | eq
deriving DecidableEq, Repr

/-- A linear constraint over boolean variables with integer coefficients,
optionally guarded by an enforcement literal: `enf = some (w, pol)` models
`.OnlyEnforceIf(w)` when `pol = true` and `.OnlyEnforceIf(w.Not())` when
`pol = false`. -/
structure LinCon where
  terms : List (Int × Var)
  cmp : Cmp
  bound : Int
  enf : Option (Var × Bool)
deriving DecidableEq, Repr

/-- A constraint emitted to the CP model: a (possibly guarded) linear
constraint, or `model.AddImplication(a, b)`. -/
inductive Constraint where
  | lin : LinCon → Constraint
  | impl : Var → Var → Constraint
deriving DecidableEq, Repr

/-- Value of a boolean variable as the integer CP-SAT uses in linear sums. -/
def boolToInt (b : Bool) : Int :=
  if b then 1 else 0

/-- Value of a linear term list under an assignment. -/
def evalLin (σ : Var → Bool) : List (Int × Var) → Int
  | [] => 0
  | (c, v) :: rest => c * boolToInt (σ v) + evalLin σ rest

/-- Sum of the (0/1) values of a list of boolean variables. -/
def sumvars (σ : Var → Bool) : List Var → Int
  | [] => 0
  | v :: rest => boolToInt (σ v) + sumvars σ rest

/-- Comparison semantics. -/
def evalCmp : Cmp → Int → Int → Bool
  | .le, x, y => decide (x ≤ y)
  | .ge, x, y => decide (y ≤ x)
  | .eq, x, y => decide (x = y)

/-- CP-SAT semantics of one emitted constraint: a guarded constraint is
enforced only when its enforcement literal has the required polarity. -/
def evalConstraint (σ : Var → Bool) : Constraint → Bool
  | .lin c =>
    match c.enf with
    | none => evalCmp c.cmp (evalLin σ c.terms) c.bound
    | some (w, pol) => if σ w = pol then evalCmp c.cmp (evalLin σ c.terms) c.bound else true
  | .impl a b => !(σ a) || σ b

/-- `model.Add(sum(vs) <= b)`. -/
def sumLe (vs : List Var) (b : Int) : Constraint :=
  .lin ⟨vs.map fun v => (1, v), .le, b, none⟩

/-- `model.Add(sum(vs) >= b)`. -/
def sumGe (vs : List Var) (b : Int) : Constraint :=
  .lin ⟨vs.map fun v => (1, v), .ge, b, none⟩

/-- `model.Add(sum(vs) >= b).OnlyEnforceIf(w / w.Not())`. -/
def sumGeIf (vs : List Var) (b : Int) (w : Var) (pol : Bool) : Constraint :=
  .lin ⟨vs.map fun v => (1, v), .ge, b, some (w, pol)⟩

/-- `model.Add(sum(vs) == b).OnlyEnforceIf(w / w.Not())`. -/
def sumEqIf (vs : List Var) (b : Int) (w : Var) (pol : Bool) : Constraint :=
  .lin ⟨vs.map fun v => (1, v), .eq, b, some (w, pol)⟩

/-- `model.Add(w >= v)` (teacher busy at least any of its activity vars). -/
def geVar (w v : Var) : Constraint :=
  .lin ⟨[(1, w), (-1, v)], .ge, 0, none⟩

/-- `model.Add(sum(vs) <= len(vs) * w)`. -/
def sumLeScaled (vs : List Var) (w : Var) : Constraint :=
  .lin ⟨(vs.map fun v => ((1 : Int), v)) ++ [(-(vs.length : Int), w)], .le, 0, none⟩

/-- `model.Add(a == b)` for two boolean variables. -/
def eqVars (a b : Var) : Constraint :=
  .lin ⟨[(1, a), (-1, b)], .eq, 0, none⟩

/-- `model.Add(a + b <= 1)`. -/
def pairLe (a b : Var) : Constraint :=
  .lin ⟨[(1, a), (1, b)], .le, 1, none⟩

/-- The indicator binding pattern used by constraint families 2, 3 and 7:
if the underlying variable list is non-empty, bind `w` by
`Add(sum >= 1).OnlyEnforceIf(w)` and `Add(sum == 0).OnlyEnforceIf(w.Not())`;
if the list is empty the Python code emits nothing (the `if …_vars:` guards). -/
def bindIndicator (vs : List Var) (w : Var) : List Constraint :=
  if vs = [] then [] else [sumGeIf vs 1 w true, sumEqIf vs 0 w false]

/-- The practical `(batch, lab)` variables of one batch of a subject in one
slot: `schedule_vars[d][t][dv][s]["practical"][b]`, one variable per
preferred lab (`create_decision_variables`, lines 321-329). -/
def batchLabVars (s : String) (i : SubjectInfo) (dv d t : Nat) (b : String) : List Var :=
  i.preferred_labs.map fun l => .practicalV d t dv s b l

/-- All practical variables of a subject in one slot for one division
(all batches, all preferred labs). -/
def practicalSlotVars (s : String) (i : SubjectInfo) (dv d t : Nat) : List Var :=
  batches.flatMap fun b => batchLabVars s i dv d t b

/-- The schedule variables a single subject contributes to one
`(day, slot, division)` cell: its theory variable when
`theory_per_week > 0`, and its practical `(batch, lab)` variables when
`practical_per_week > 0` (`create_decision_variables`, lines 315-329). -/
def subjectSlotVars (d t dv : Nat) (si : String × SubjectInfo) : List Var :=
  (if 0 < si.2.theory_per_week then [.theoryV d t dv si.1] else []) ++
  (if 0 < si.2.practical_per_week then practicalSlotVars si.1 si.2 dv d t else [])

/-- `create_decision_variables` (lines 302-338): all schedule variables over
the 5x7x2 grid, followed by the per-teacher busy indicators.  The function
performs no validation and cannot fail. -/
def create_decision_variables (p : Problem) : List Var :=
  ((List.range 5).flatMap fun d => (List.range 7).flatMap fun t =>
    (List.range 2).flatMap fun dv => p.subjects.flatMap (subjectSlotVars d t dv)) ++
  ((List.range 5).flatMap fun d => (List.range 7).flatMap fun t =>
    p.teachers.map fun te => .teacherV te.1 d t)

/-- `slot_activities` of constraint family 1: every activity variable of a
`(day, slot, division)` cell, theory and practicals alike (lines 347-362). -/
def slotActivities (p : Problem) (d t dv : Nat) : List Var :=
  p.subjects.flatMap (subjectSlotVars d t dv)

/-- Family 1 (lines 343-365): for each cell with at least one activity
variable, `Add(sum(slot_activities) <= 1)`. -/
def family1 (p : Problem) : List Constraint :=
  (List.range 5).flatMap fun d => (List.range 7).flatMap fun t =>
    (List.range 2).flatMap fun dv =>
      if slotActivities p d t dv = [] then [] else [sumLe (slotActivities p d t dv) 1]

/-- `theory_lectures` of family 2: all 35 theory variables of a subject and
division across the week (collected when `theory_per_week > 0`). -/
def theoryLectures (s : String) (dv : Nat) : List Var :=
  (List.range 5).flatMap fun d => (List.range 7).map fun t => .theoryV d t dv s

/-- `practical_lectures` of family 2: one `practical_indicator` variable per
slot in which the subject has at least one practical variable. -/
def practicalLectures (s : String) (i : SubjectInfo) (dv : Nat) : List Var :=
  (List.range 5).flatMap fun d => (List.range 7).flatMap fun t =>
    if practicalSlotVars s i dv d t = [] then [] else [.practicalIndicator s dv d t]

/-- Family 2 (lines 367-405): minimum weekly load.  Theory:
`Add(sum(theory_lectures) >= theory_per_week)`.  Practical: bind a
`practical_indicator` per slot with the two `OnlyEnforceIf` constraints,
then `Add(sum(practical_lectures) >= practical_per_week)`. -/
def family2 (p : Problem) : List Constraint :=
  p.subjects.flatMap fun si =>
    (List.range 2).flatMap fun dv =>
      (if 0 < si.2.theory_per_week then
        (if theoryLectures si.1 dv = [] then []
         else [sumGe (theoryLectures si.1 dv) (si.2.theory_per_week : Int)])
       else []) ++
      (if 0 < si.2.practical_per_week then
        ((List.range 5).flatMap fun d => (List.range 7).flatMap fun t =>
          bindIndicator (practicalSlotVars si.1 si.2 dv d t) (.practicalIndicator si.1 dv d t)) ++
        (if practicalLectures si.1 si.2 dv = [] then []
         else [sumGe (practicalLectures si.1 si.2 dv) (si.2.practical_per_week : Int)])
       else [])

/-- `div_a_theory_vars` / `div_b_theory_vars` of family 3 (division index
0 or 1): all theory variables of the division in the slot. -/
def divTheoryVars (p : Problem) (d t dvIdx : Nat) : List Var :=
  p.subjects.flatMap fun si =>
    if 0 < si.2.theory_per_week then [.theoryV d t dvIdx si.1] else []

/-- `div_a_practical_vars` / `div_b_practical_vars` of family 3. -/
def divPracticalVars (p : Problem) (d t dvIdx : Nat) : List Var :=
  p.subjects.flatMap fun si =>
    if 0 < si.2.practical_per_week then practicalSlotVars si.1 si.2 dvIdx d t else []

/-- Family 3 (lines 407-470): per slot, bind the four division indicators
(each only when its variable list is non-empty), then
`AddImplication(div_a_has_practical, div_b_has_theory)` and symmetrically. -/
def family3 (p : Problem) : List Constraint :=
  (List.range 5).flatMap fun d => (List.range 7).flatMap fun t =>
    bindIndicator (divPracticalVars p d t 0) (.divAPrac d t) ++
    bindIndicator (divPracticalVars p d t 1) (.divBPrac d t) ++
    bindIndicator (divTheoryVars p d t 0) (.divATheory d t) ++
    bindIndicator (divTheoryVars p d t 1) (.divBTheory d t) ++
    [.impl (.divAPrac d t) (.divBTheory d t), .impl (.divBPrac d t) (.divATheory d t)]

/-- `lab_usage` of family 4: every practical variable referencing a given
lab in a given slot (lines 476-484). -/
def labUsage (p : Problem) (d t : Nat) (lab : String) : List Var :=
  (List.range 2).flatMap fun dv => p.subjects.flatMap fun si =>
    if 0 < si.2.practical_per_week then
      batches.flatMap fun b =>
        if lab ∈ si.2.preferred_labs then [.practicalV d t dv si.1 b lab] else []
    else []

/-- Family 4 (lines 472-487): `Add(sum(lab_usage) <= 1)` per slot and lab. -/
def family4 (p : Problem) : List Constraint :=
  (List.range 5).flatMap fun d => (List.range 7).flatMap fun t =>
    p.labs.flatMap fun lab =>
      if labUsage p d t lab = [] then [] else [sumLe (labUsage p d t lab) 1]

/-- `teacher_subjects_vars` of family 5: every activity variable, in either
division, of a subject in the list of subjects taught by the teacher
(lines 494-510).  Looking a taught subject up in `self.subjects` mirrors the
`schedule_vars` access; subjects collected by the input phase always occur
in the model. -/
def teacherSubjectsVars (p : Problem) (subjs : List String) (d t : Nat) : List Var :=
  subjs.flatMap fun s => (List.range 2).flatMap fun dv =>
    match List.lookup s p.subjects with
    | some i =>
      (if 0 < i.theory_per_week then [.theoryV d t dv s] else []) ++
      (if 0 < i.practical_per_week then practicalSlotVars s i dv d t else [])
    | none => []

/-- Family 5 (lines 489-522): per slot and teacher with a non-empty variable
list, `Add(busy >= var)` for each variable, then
`Add(sum(vars) <= len(vars) * busy)`. -/
def family5 (p : Problem) : List Constraint :=
  (List.range 5).flatMap fun d => (List.range 7).flatMap fun t =>
    p.teachers.flatMap fun te =>
      if teacherSubjectsVars p te.2 d t = [] then []
      else
        ((teacherSubjectsVars p te.2 d t).map fun v => geVar (.teacherV te.1 d t) v) ++
        [sumLeScaled (teacherSubjectsVars p te.2 d t) (.teacherV te.1 d t)]

/-- Family 6 (lines 524-536): per day, teacher and adjacent slot pair
`(i, i+1)` with `i ≠ 2`, `Add(busy[i] + busy[i+1] <= 1)`; the pair `(2, 3)`
spanning the lunch break is skipped. -/
def family6 (p : Problem) : List Constraint :=
  (List.range 5).flatMap fun d => p.teachers.flatMap fun te =>
    (List.range 6).flatMap fun i =>
      if i = 2 then [] else [pairLe (.teacherV te.1 d i) (.teacherV te.1 d (i + 1))]

/-- `batch_vars` of family 7: one `batch_…_scheduled` indicator per batch
whose `(batch, lab)` variable list is non-empty (lines 545-559). -/
def batchVars (s : String) (i : SubjectInfo) (dv d t : Nat) : List Var :=
  batches.flatMap fun b =>
    if batchLabVars s i dv d t b = [] then [] else [.batchScheduled b d t dv s]

/-- The pairwise equality constraints of family 7 (lines 561-564): when more
than one batch indicator exists, `Add(batch_vars[0] == batch_vars[k])` for
every later indicator. -/
def batchEqCons (s : String) (i : SubjectInfo) (dv d t : Nat) : List Constraint :=
  match batchVars s i dv d t with
  | [] => []
  | b0 :: rest => if rest = [] then [] else rest.map fun bi => eqVars b0 bi

/-- Family 7 (lines 538-564): per slot, division and subject with a
practical component, bind each batch indicator to its lab variables, then
emit the pairwise batch-indicator equalities. -/
def family7 (p : Problem) : List Constraint :=
  (List.range 5).flatMap fun d => (List.range 7).flatMap fun t =>
    (List.range 2).flatMap fun dv =>
      p.subjects.flatMap fun si =>
        if 0 < si.2.practical_per_week then
          (batches.flatMap fun b =>
            bindIndicator (batchLabVars si.1 si.2 dv d t b) (.batchScheduled b d t dv si.1)) ++
          batchEqCons si.1 si.2 dv d t
        else []

/-- `add_constraints` (lines 340-564): the full emitted constraint set,
families 1 through 7 in order. -/
def add_constraints (p : Problem) : List Constraint :=
  family1 p ++ family2 p ++ family3 p ++ family4 p ++ family5 p ++ family6 p ++ family7 p

/-- An assignment satisfies the emitted constraint set when every emitted
constraint evaluates to true under CP-SAT semantics. -/
def satisfies (p : Problem) (σ : Var → Bool) : Bool :=
  (add_constraints p).all (evalConstraint σ)

/-- CP-SAT solve statuses relevant to `solve_timetable`. -/
inductive CpSolverStatus where
  | optimal
  | feasible
  | infeasible
  | unknown
  | model_invalid
deriving DecidableEq, Repr

/-- The outcome `solve_timetable` (lines 566-588) reports to its caller:
`True` with a success message for OPTIMAL/FEASIBLE, otherwise `False` with
the single failure message, whatever the non-success status was. -/
def solve_outcome (st : CpSolverStatus) : Bool × String :=
  if st = .optimal ∨ st = .feasible then
    (true, "Timetable generated successfully!")
  else
    (false, "Could not generate a valid timetable with given constraints.")

/-- One decoded timetable cell (`extract_solution`, lines 606-639).  The
teacher is the `subject_teacher_mapping` lookup; the display-name formatting
and the comma-joined lab string of the script are rendering of the same data
and are not modelled.  `batchAssignment` holds the `batch -> lab` pairs of a
practical cell (empty for theory). -/
structure Activity where
  subject : String
  kind : String
  teacher : Option String
  batchAssignment : List (String × String)
deriving DecidableEq, Repr

/-- The `practical_info[subject]` dict of `extract_solution` (lines 616-622):
for each batch, iterating the preferred labs and overwriting on every true
variable leaves the last true lab; batches with no true variable get no key. -/
def batchLabPairs (σ : Var → Bool) (s : String) (i : SubjectInfo) (d t dv : Nat) :
    List (String × String) :=
  batches.filterMap fun b =>
    match (i.preferred_labs.filter fun l => σ (.practicalV d t dv s b l)).getLast? with
    | some l => some (b, l)
    | none => none

/-- One cell of `extract_solution` (lines 599-639): starting from `None`,
iterate the subjects in order; a true theory variable overwrites the cell
with a theory activity, and a non-empty practical assignment overwrites it
with a practical activity.  Later finds silently overwrite earlier ones a
nd no case raises an error. -/
def extract_cell (p : Problem) (σ : Var → Bool) (d t dv : Nat) : Option Activity :=
  p.subjects.foldl
    (fun acc si =>
      let acc1 :=
        if 0 < si.2.theory_per_week ∧ σ (.theoryV d t dv si.1) = true then
          some ⟨si.1, "Theory", List.lookup si.1 p.subject_teacher_mapping, []⟩
        else acc
      if 0 < si.2.practical_per_week then
        if batchLabPairs σ si.1 si.2 d t dv ≠ [] then
          some ⟨si.1, "Practical", List.lookup si.1 p.subject_teacher_mapping,
            batchLabPairs σ si.1 si.2 d t dv⟩
        else acc1
      else acc1)
    none

/-- `extract_solution` (lines 590-641): the full day-slot-division grid of
decoded cells. -/
def extract_solution (p : Problem) (σ : Var → Bool) : List (List (List (Option Activity))) :=
  (List.range 5).map fun d => (List.range 7).map fun t =>
    (List.range 2).map fun dv => extract_cell p σ d t dv

/-- The end-to-end scenario of the spec: one lab L1, one subject DS with
theory 2, practical 1, preferred lab L1, one teacher T1 teaching DS. -/
def scenarioP : Problem :=
  ⟨[("DS", ⟨2, 1, ["L1"]⟩)], [("T1", ["DS"])], ["L1"], [("DS", "T1")]⟩

/-- A theory-only problem: one subject DS (theory 1, no practical), one
teacher T1 teaching DS, no labs. -/
def theoryP : Problem :=
  ⟨[("DS", ⟨1, 0, []⟩)], [("T1", ["DS"])], [], [("DS", "T1")]⟩

/-- A problem whose only subject has zero theory and zero practical
requirement, plus one teacher. -/
def zeroReqP : Problem :=
  ⟨[("ZZ", ⟨0, 0, []⟩)], [("T1", [])], [], []⟩

/-- A problem whose only subject requires a practical but lists no
preferred labs, plus one teacher. -/
def noLabP : Problem :=
  ⟨[("YY", ⟨0, 1, []⟩)], [("T1", [])], [], []⟩

/-- The same teacher as `zeroReqP` and `noLabP` but no subjects at all. -/
def noSubjectP : Problem :=
  ⟨[], [("T1", [])], [], []⟩

/-- Two theory-only subjects AA and BB taught by the same teacher. -/
def twoSubjP : Problem :=
  ⟨[("AA", ⟨1, 0, []⟩), ("BB", ⟨1, 0, []⟩)],
   [("T1", ["AA", "BB"])], [], [("AA", "T1"), ("BB", "T1")]⟩

/-- Assignment for `theoryP`: DS theory in slot (0,0) for both divisions,
teacher T1 busy there, the two theory indicators of that slot set, all
other variables false. -/
def sigma3 : Var → Bool
  | .theoryV 0 0 _ "DS" => true
  | .teacherV "T1" 0 0 => true
  | .divATheory 0 0 => true
  | .divBTheory 0 0 => true
  | _ => false

/-- Like `sigma3` but with the teacher busy indicator of slot (0,5) also
true although no activity of the teacher is scheduled there. -/
def sigma4 : Var → Bool
  | .theoryV 0 0 _ "DS" => true
  | .teacherV "T1" 0 0 => true
  | .teacherV "T1" 0 5 => true
  | .divATheory 0 0 => true
  | .divBTheory 0 0 => true
  | _ => false

/-- Like `sigma3` but with the teacher busy indicators of the two slots
around the lunch break (slots 2 and 3 of day 0) both true. -/
def sigma8 : Var → Bool
  | .theoryV 0 0 _ "DS" => true
  | .teacherV "T1" 0 0 => true
  | .teacherV "T1" 0 2 => true
  | .teacherV "T1" 0 3 => true
  | .divATheory 0 0 => true
  | .divBTheory 0 0 => true
  | _ => false

/-- Like `sigma3` but with the (unbound) division-A-has-practical indicator
of slot (0,0) also true. -/
def sigma9 : Var → Bool
  | .theoryV 0 0 _ "DS" => true
  | .teacherV "T1" 0 0 => true
  | .divATheory 0 0 => true
  | .divBTheory 0 0 => true
  | .divAPrac 0 0 => true
  | _ => false

/-- Assignment with two true activity variables in the same cell
(0, 0, division 0): theory of AA and theory of BB. -/
def sigma6 : Var → Bool
  | .theoryV 0 0 0 "AA" => true
  | .theoryV 0 0 0 "BB" => true
  | _ => false

set_option maxRecDepth 100000

/-! Basic arithmetic lemmas about 0/1 sums of boolean variables. -/

lemma boolToInt_nonneg (b : Bool) : 0 ≤ boolToInt b := by
  cases b <;> simp [boolToInt]

lemma one_le_boolToInt {b : Bool} : 1 ≤ boolToInt b ↔ b = true := by
  cases b <;> simp [boolToInt]

@[simp] lemma sumvars_nil (σ : Var → Bool) : sumvars σ [] = 0 := rfl

@[simp] lemma sumvars_cons (σ : Var → Bool) (v : Var) (l : List Var) :
    sumvars σ (v :: l) = boolToInt (σ v) + sumvars σ l := rfl

lemma sumvars_nonneg (σ : Var → Bool) (l : List Var) : 0 ≤ sumvars σ l := by
  induction l with
  | nil => simp
  | cons v r ih =>
    have := boolToInt_nonneg (σ v)
    simp only [sumvars_cons]
    omega

lemma sumvars_eq_map_sum (σ : Var → Bool) (l : List Var) :
    sumvars σ l = (l.map fun v => boolToInt (σ v)).sum := by
  induction l with
  | nil => simp
  | cons v r ih => simp [ih]

lemma sumvars_perm (σ : Var → Bool) {l l' : List Var} (h : l.Perm l') :
    sumvars σ l = sumvars σ l' := by
  rw [sumvars_eq_map_sum, sumvars_eq_map_sum]
  exact (h.map _).sum_eq

lemma sumvars_erase (σ : Var → Bool) {v : Var} {l : List Var} (h : v ∈ l) :
    sumvars σ l = boolToInt (σ v) + sumvars σ (l.erase v) := by
  rw [sumvars_perm σ (List.perm_cons_erase h)]
  rfl

lemma one_le_sumvars (σ : Var → Bool) {v : Var} {l : List Var} (h : v ∈ l)
    (hv : σ v = true) : 1 ≤ sumvars σ l := by
  rw [sumvars_erase σ h, hv]
  have h2 := sumvars_nonneg σ (l.erase v)
  have e : boolToInt true = 1 := rfl
  omega

lemma exists_true_of_one_le {σ : Var → Bool} {l : List Var}
    (h : 1 ≤ sumvars σ l) : ∃ v ∈ l, σ v = true := by
  induction l with
  | nil => simp at h
  | cons v r ih =>
    cases hv : σ v with
    | true => exact ⟨v, List.mem_cons_self v r, hv⟩
    | false =>
      simp only [sumvars_cons, hv, boolToInt] at h
      simp only [if_neg Bool.false_ne_true] at h
      obtain ⟨w, hw, hwt⟩ := ih (by omega)
      exact ⟨w, List.mem_cons_of_mem v hw, hwt⟩

lemma all_false_of_sumvars_le_zero {σ : Var → Bool} {l : List Var}
    (h : sumvars σ l ≤ 0) : ∀ v ∈ l, σ v = false := by
  intro v hv
  cases hσ : σ v with
  | false => rfl
  | true =>
    have := one_le_sumvars σ hv hσ
    omega

lemma three_le_sumvars {σ : Var → Bool} {l : List Var} {a b c : Var}
    (ha : a ∈ l) (hb : b ∈ l) (hc : c ∈ l)
    (hab : a ≠ b) (hac : a ≠ c) (hbc : b ≠ c)
    (h1 : σ a = true) (h2 : σ b = true) (h3 : σ c = true) :
    3 ≤ sumvars σ l := by
  rw [sumvars_erase σ ha, h1]
  have hb' : b ∈ l.erase a := (List.mem_erase_of_ne (Ne.symm hab)).2 hb
  rw [sumvars_erase σ hb', h2]
  have hc' : c ∈ (l.erase a).erase b :=
    (List.mem_erase_of_ne (Ne.symm hbc)).2 ((List.mem_erase_of_ne (Ne.symm hac)).2 hc)
  have h4 := one_le_sumvars σ hc' h3
  have e : boolToInt true = 1 := rfl
  omega

/-! Evaluation lemmas for the emitted constraint shapes. -/

@[simp] lemma evalLin_nil (σ : Var → Bool) : evalLin σ [] = 0 := rfl

@[simp] lemma evalLin_cons (σ : Var → Bool) (c : Int) (v : Var) (l : List (Int × Var)) :
    evalLin σ ((c, v) :: l) = c * boolToInt (σ v) + evalLin σ l := rfl

lemma evalLin_append (σ : Var → Bool) (l1 l2 : List (Int × Var)) :
    evalLin σ (l1 ++ l2) = evalLin σ l1 + evalLin σ l2 := by
  induction l1 with
  | nil => simp
  | cons p r ih =>
    obtain ⟨c, v⟩ := p
    simp [ih, add_assoc]

lemma evalLin_map_one (σ : Var → Bool) (l : List Var) :
    evalLin σ (l.map fun v => ((1 : Int), v)) = sumvars σ l := by
  induction l with
  | nil => simp
  | cons v r ih => simp [ih]

lemma eval_sumLe {σ : Var → Bool} {vs : List Var} {b : Int} :
    evalConstraint σ (sumLe vs b) = true ↔ sumvars σ vs ≤ b := by
  simp [evalConstraint, sumLe, evalCmp, evalLin_map_one]

lemma eval_sumGe {σ : Var → Bool} {vs : List Var} {b : Int} :
    evalConstraint σ (sumGe vs b) = true ↔ b ≤ sumvars σ vs := by
  simp [evalConstraint, sumGe, evalCmp, evalLin_map_one]

lemma eval_sumGeIf {σ : Var → Bool} {vs : List Var} {b : Int} {w : Var} {pol : Bool} :
    evalConstraint σ (sumGeIf vs b w pol) = true ↔ (σ w = pol → b ≤ sumvars σ vs) := by
  by_cases hw : σ w = pol <;>
    simp [evalConstraint, sumGeIf, evalCmp, evalLin_map_one, hw]

lemma eval_sumEqIf {σ : Var → Bool} {vs : List Var} {b : Int} {w : Var} {pol : Bool} :
    evalConstraint σ (sumEqIf vs b w pol) = true ↔ (σ w = pol → sumvars σ vs = b) := by
  by_cases hw : σ w = pol <;>
    simp [evalConstraint, sumEqIf, evalCmp, evalLin_map_one, hw]

lemma eval_impl {σ : Var → Bool} {a b : Var} :
    evalConstraint σ (.impl a b) = true ↔ (σ a = true → σ b = true) := by
  cases ha : σ a <;> simp [evalConstraint, ha]

lemma eval_geVar {σ : Var → Bool} {w v : Var} :
    evalConstraint σ (geVar w v) = true ↔ boolToInt (σ v) ≤ boolToInt (σ w) := by
  simp [evalConstraint, geVar, evalCmp]

lemma eval_sumLeScaled {σ : Var → Bool} {vs : List Var} {w : Var} :
    evalConstraint σ (sumLeScaled vs w) = true ↔
      sumvars σ vs ≤ (vs.length : Int) * boolToInt (σ w) := by
  simp only [evalConstraint, sumLeScaled, evalCmp, evalLin_append, evalLin_map_one,
    evalLin_cons, evalLin_nil, decide_eq_true_eq]
  constructor <;> intro h <;> linarith

lemma eval_eqVars {σ : Var → Bool} {a b : Var} :
    evalConstraint σ (eqVars a b) = true ↔ σ a = σ b := by
  cases ha : σ a <;> cases hb : σ b <;>
    simp [evalConstraint, eqVars, evalCmp, ha, hb, boolToInt]

lemma eval_pairLe {σ : Var → Bool} {a b : Var} :
    evalConstraint σ (pairLe a b) = true ↔
      boolToInt (σ a) + boolToInt (σ b) ≤ 1 := by
  simp [evalConstraint, pairLe, evalCmp]

/-! Membership helpers for the `flatMap`/guard structure of the emission. -/

lemma mem_flatMap_range {α : Type} {n i : Nat} {f : Nat → List α} {a : α}
    (hi : i < n) (ha : a ∈ f i) : a ∈ (List.range n).flatMap f :=
  List.mem_flatMap.2 ⟨i, List.mem_range.2 hi, ha⟩

lemma mem_flatMap_of {α β : Type} {l : List β} {f : β → List α} {b : β} {a : α}
    (hb : b ∈ l) (ha : a ∈ f b) : a ∈ l.flatMap f :=
  List.mem_flatMap.2 ⟨b, hb, ha⟩

lemma mem_if_pos {α : Type} {c : Prop} [Decidable c] {l : List α} {a : α}
    (hc : c) (ha : a ∈ l) : a ∈ if c then l else [] := by
  rw [if_pos hc]
  exact ha

lemma of_mem_if {α : Type} {c : Prop} [Decidable c] {l : List α} {a : α}
    (h : a ∈ if c then l else []) : c ∧ a ∈ l := by
  by_cases hc : c
  · exact ⟨hc, by rwa [if_pos hc] at h⟩
  · rw [if_neg hc] at h
    exact absurd h (List.not_mem_nil a)

lemma mem_guard_singleton {α β : Type} [DecidableEq β] {l : List β} (h : l ≠ []) (x : α) :
    x ∈ (if l = [] then ([] : List α) else [x]) := by
  rw [if_neg h]
  exact List.mem_singleton_self x

lemma of_mem_guard_singleton {α β : Type} [DecidableEq β] {l : List β} {x y : α}
    (h : y ∈ (if l = [] then ([] : List α) else [x])) : l ≠ [] ∧ y = x := by
  by_cases hl : l = []
  · rw [if_pos hl] at h
    exact absurd h (List.not_mem_nil y)
  · rw [if_neg hl] at h
    exact ⟨hl, List.mem_singleton.1 h⟩

lemma mem_bindIndicator_ge {vs : List Var} {w : Var} (h : vs ≠ []) :
    sumGeIf vs 1 w true ∈ bindIndicator vs w := by
  simp [bindIndicator, h]

lemma mem_bindIndicator_eq {vs : List Var} {w : Var} (h : vs ≠ []) :
    sumEqIf vs 0 w false ∈ bindIndicator vs w := by
  simp [bindIndicator, h]

/-! Extraction of individual emitted constraints from a satisfying
assignment. -/

lemma sat_all {p : Problem} {σ : Var → Bool} (h : satisfies p σ = true)
    {c : Constraint} (hc : c ∈ add_constraints p) : evalConstraint σ c = true :=
  List.all_eq_true.1 h c hc

lemma sat_f1 {p : Problem} {σ : Var → Bool} (h : satisfies p σ = true)
    {c : Constraint} (hc : c ∈ family1 p) : evalConstraint σ c = true :=
  sat_all h (by
    simp only [add_constraints, List.mem_append]
    exact Or.inl (Or.inl (Or.inl (Or.inl (Or.inl (Or.inl hc))))))

lemma sat_f2 {p : Problem} {σ : Var → Bool} (h : satisfies p σ = true)
    {c : Constraint} (hc : c ∈ family2 p) : evalConstraint σ c = true :=
  sat_all h (by
    simp only [add_constraints, List.mem_append]
    exact Or.inl (Or.inl (Or.inl (Or.inl (Or.inl (Or.inr hc))))))

lemma sat_f3 {p : Problem} {σ : Var → Bool} (h : satisfies p σ = true)
    {c : Constraint} (hc : c ∈ family3 p) : evalConstraint σ c = true :=
  sat_all h (by
    simp only [add_constraints, List.mem_append]
    exact Or.inl (Or.inl (Or.inl (Or.inl (Or.inr hc)))))

lemma sat_f5 {p : Problem} {σ : Var → Bool} (h : satisfies p σ = true)
    {c : Constraint} (hc : c ∈ family5 p) : evalConstraint σ c = true :=
  sat_all h (by
    simp only [add_constraints, List.mem_append]
    exact Or.inl (Or.inl (Or.inr hc)))

lemma sat_f6 {p : Problem} {σ : Var → Bool} (h : satisfies p σ = true)
    {c : Constraint} (hc : c ∈ family6 p) : evalConstraint σ c = true :=
  sat_all h (by
    simp only [add_constraints, List.mem_append]
    exact Or.inl (Or.inr hc))

lemma sat_f7 {p : Problem} {σ : Var → Bool} (h : satisfies p σ = true)
    {c : Constraint} (hc : c ∈ family7 p) : evalConstraint σ c = true :=
  sat_all h (by
    simp only [add_constraints, List.mem_append]
    exact Or.inr hc)

lemma mem_guard {α β : Type} [DecidableEq β] {l : List β} (h : l ≠ [])
    {x : α} {r : List α} (hx : x ∈ r) : x ∈ (if l = [] then [] else r) := by
  rw [if_neg h]
  exact hx

/-! Non-emptiness facts about the collected variable lists. -/

lemma theoryLectures_ne_nil (s : String) (dv : Nat) : theoryLectures s dv ≠ [] :=
  List.ne_nil_of_mem
    (mem_flatMap_range (show 0 < 5 by omega)
      (List.mem_map.2 ⟨0, List.mem_range.2 (by omega), rfl⟩))

lemma batchLabVars_ne_nil (s : String) (i : SubjectInfo) (dv d t : Nat) (b : String)
    (hlabs : i.preferred_labs ≠ []) : batchLabVars s i dv d t b ≠ [] := by
  intro hcontra
  exact hlabs (List.map_eq_nil_iff.1 hcontra)

lemma practicalSlotVars_ne_nil (s : String) (i : SubjectInfo) (dv d t : Nat)
    (hlabs : i.preferred_labs ≠ []) : practicalSlotVars s i dv d t ≠ [] := by
  obtain ⟨l, hl⟩ := List.exists_mem_of_ne_nil _ hlabs
  exact List.ne_nil_of_mem
    (mem_flatMap_of (show "P" ∈ batches by simp [batches]) (List.mem_map.2 ⟨l, hl, rfl⟩))

/-! Inversion of membership in the collected variable lists. -/

lemma mem_practicalSlotVars_inv {v : Var} {s : String} {i : SubjectInfo} {dv d t : Nat}
    (h : v ∈ practicalSlotVars s i dv d t) :
    ∃ b ∈ batches, ∃ l ∈ i.preferred_labs, v = .practicalV d t dv s b l := by
  obtain ⟨b, hb, hbl⟩ := List.mem_flatMap.1 h
  obtain ⟨l, hl, rfl⟩ := List.mem_map.1 hbl
  exact ⟨b, hb, l, hl, rfl⟩

lemma mem_practicalLectures_inv {v : Var} {s : String} {i : SubjectInfo} {dv : Nat}
    (h : v ∈ practicalLectures s i dv) :
    ∃ d, d < 5 ∧ ∃ t, t < 7 ∧ practicalSlotVars s i dv d t ≠ [] ∧
      v = .practicalIndicator s dv d t := by
  obtain ⟨d, hd, h1⟩ := List.mem_flatMap.1 h
  obtain ⟨t, ht, h2⟩ := List.mem_flatMap.1 h1
  obtain ⟨hne, rfl⟩ := of_mem_guard_singleton h2
  exact ⟨d, List.mem_range.1 hd, t, List.mem_range.1 ht, hne, rfl⟩

lemma mem_subjectSlotVars_inv {d t dv : Nat} {si : String × SubjectInfo} {v : Var}
    (h : v ∈ subjectSlotVars d t dv si) :
    (0 < si.2.theory_per_week ∧ v = .theoryV d t dv si.1) ∨
    (0 < si.2.practical_per_week ∧
      ∃ b ∈ batches, ∃ l ∈ si.2.preferred_labs, v = .practicalV d t dv si.1 b l) := by
  rcases List.mem_append.1 h with h1 | h2
  · obtain ⟨hth, hmem⟩ := of_mem_if h1
    exact Or.inl ⟨hth, List.mem_singleton.1 hmem⟩
  · obtain ⟨hp, hmem⟩ := of_mem_if h2
    exact Or.inr ⟨hp, mem_practicalSlotVars_inv hmem⟩

lemma practicalV_mem_slotActivities {p : Problem} {d t dv : Nat} {s : String}
    {i : SubjectInfo} {b l : String} (hm : (s, i) ∈ p.subjects)
    (hp : 0 < i.practical_per_week) (hb : b ∈ batches) (hl : l ∈ i.preferred_labs) :
    Var.practicalV d t dv s b l ∈ slotActivities p d t dv := by
  unfold slotActivities
  apply mem_flatMap_of hm
  apply List.mem_append_right
  apply mem_if_pos hp
  exact mem_flatMap_of hb (List.mem_map.2 ⟨l, hl, rfl⟩)

/-! Semantic consequences of each constraint family for a satisfying
assignment. -/

lemma slot_exclusivity {p : Problem} {σ : Var → Bool} (h : satisfies p σ = true)
    {d t dv : Nat} (hd : d < 5) (ht : t < 7) (hdv : dv < 2) :
    sumvars σ (slotActivities p d t dv) ≤ 1 := by
  by_cases hA : slotActivities p d t dv = []
  · rw [hA]
    simp
  · have hc : sumLe (slotActivities p d t dv) 1 ∈ family1 p := by
      unfold family1
      exact mem_flatMap_range hd (mem_flatMap_range ht (mem_flatMap_range hdv
        (mem_guard_singleton hA _)))
    exact eval_sumLe.1 (sat_f1 h hc)

lemma theory_load {p : Problem} {σ : Var → Bool} (h : satisfies p σ = true)
    {s : String} {i : SubjectInfo} {dv : Nat} (hm : (s, i) ∈ p.subjects)
    (hdv : dv < 2) (hth : 0 < i.theory_per_week) :
    (i.theory_per_week : Int) ≤ sumvars σ (theoryLectures s dv) := by
  have hc : sumGe (theoryLectures s dv) (i.theory_per_week : Int) ∈ family2 p := by
    unfold family2
    apply mem_flatMap_of hm
    apply mem_flatMap_range hdv
    apply List.mem_append_left
    apply mem_if_pos hth
    exact mem_guard_singleton (theoryLectures_ne_nil s dv) _
  exact eval_sumGe.1 (sat_f2 h hc)

lemma prac_bind {p : Problem} {σ : Var → Bool} (h : satisfies p σ = true)
    {s : String} {i : SubjectInfo} {dv d t : Nat} (hm : (s, i) ∈ p.subjects)
    (hdv : dv < 2) (hp : 0 < i.practical_per_week) (hd : d < 5) (ht : t < 7)
    (hne : practicalSlotVars s i dv d t ≠ []) :
    (σ (.practicalIndicator s dv d t) = true →
      1 ≤ sumvars σ (practicalSlotVars s i dv d t)) ∧
    (σ (.practicalIndicator s dv d t) = false →
      sumvars σ (practicalSlotVars s i dv d t) = 0) := by
  have hc1 : sumGeIf (practicalSlotVars s i dv d t) 1
      (.practicalIndicator s dv d t) true ∈ family2 p := by
    unfold family2
    apply mem_flatMap_of hm
    apply mem_flatMap_range hdv
    apply List.mem_append_right
    apply mem_if_pos hp
    apply List.mem_append_left
    exact mem_flatMap_range hd (mem_flatMap_range ht (mem_bindIndicator_ge hne))
  have hc2 : sumEqIf (practicalSlotVars s i dv d t) 0
      (.practicalIndicator s dv d t) false ∈ family2 p := by
    unfold family2
    apply mem_flatMap_of hm
    apply mem_flatMap_range hdv
    apply List.mem_append_right
    apply mem_if_pos hp
    apply List.mem_append_left
    exact mem_flatMap_range hd (mem_flatMap_range ht (mem_bindIndicator_eq hne))
  exact ⟨fun hi => eval_sumGeIf.1 (sat_f2 h hc1) hi,
    fun hi => eval_sumEqIf.1 (sat_f2 h hc2) hi⟩

lemma prac_load {p : Problem} {σ : Var → Bool} (h : satisfies p σ = true)
    {s : String} {i : SubjectInfo} {dv : Nat} (hm : (s, i) ∈ p.subjects)
    (hdv : dv < 2) (hp : 0 < i.practical_per_week)
    (hne : practicalLectures s i dv ≠ []) :
    (i.practical_per_week : Int) ≤ sumvars σ (practicalLectures s i dv) := by
  have hc : sumGe (practicalLectures s i dv) (i.practical_per_week : Int) ∈ family2 p := by
    unfold family2
    apply mem_flatMap_of hm
    apply mem_flatMap_range hdv
    apply List.mem_append_right
    apply mem_if_pos hp
    apply List.mem_append_right
    exact mem_guard_singleton hne _
  exact eval_sumGe.1 (sat_f2 h hc)

lemma div_impl_a {p : Problem} {σ : Var → Bool} (h : satisfies p σ = true)
    {d t : Nat} (hd : d < 5) (ht : t < 7) :
    σ (.divAPrac d t) = true → σ (.divBTheory d t) = true := by
  have hc : Constraint.impl (.divAPrac d t) (.divBTheory d t) ∈ family3 p := by
    unfold family3
    apply mem_flatMap_range hd
    apply mem_flatMap_range ht
    apply List.mem_append_right
    simp
  exact eval_impl.1 (sat_f3 h hc)

lemma div_impl_b {p : Problem} {σ : Var → Bool} (h : satisfies p σ = true)
    {d t : Nat} (hd : d < 5) (ht : t < 7) :
    σ (.divBPrac d t) = true → σ (.divATheory d t) = true := by
  have hc : Constraint.impl (.divBPrac d t) (.divATheory d t) ∈ family3 p := by
    unfold family3
    apply mem_flatMap_range hd
    apply mem_flatMap_range ht
    apply List.mem_append_right
    simp
  exact eval_impl.1 (sat_f3 h hc)

lemma divATheory_bind {p : Problem} {σ : Var → Bool} (h : satisfies p σ = true)
    {d t : Nat} (hd : d < 5) (ht : t < 7) (hne : divTheoryVars p d t 0 ≠ []) :
    (σ (.divATheory d t) = true → 1 ≤ sumvars σ (divTheoryVars p d t 0)) ∧
    (σ (.divATheory d t) = false → sumvars σ (divTheoryVars p d t 0) = 0) := by
  have hc1 : sumGeIf (divTheoryVars p d t 0) 1 (.divATheory d t) true ∈ family3 p := by
    unfold family3
    apply mem_flatMap_range hd
    apply mem_flatMap_range ht
    apply List.mem_append_left
    apply List.mem_append_left
    apply List.mem_append_right
    exact mem_bindIndicator_ge hne
  have hc2 : sumEqIf (divTheoryVars p d t 0) 0 (.divATheory d t) false ∈ family3 p := by
    unfold family3
    apply mem_flatMap_range hd
    apply mem_flatMap_range ht
    apply List.mem_append_left
    apply List.mem_append_left
    apply List.mem_append_right
    exact mem_bindIndicator_eq hne
  exact ⟨fun hi => eval_sumGeIf.1 (sat_f3 h hc1) hi,
    fun hi => eval_sumEqIf.1 (sat_f3 h hc2) hi⟩

lemma divBTheory_bind {p : Problem} {σ : Var → Bool} (h : satisfies p σ = true)
    {d t : Nat} (hd : d < 5) (ht : t < 7) (hne : divTheoryVars p d t 1 ≠ []) :
    (σ (.divBTheory d t) = true → 1 ≤ sumvars σ (divTheoryVars p d t 1)) ∧
    (σ (.divBTheory d t) = false → sumvars σ (divTheoryVars p d t 1) = 0) := by
  have hc1 : sumGeIf (divTheoryVars p d t 1) 1 (.divBTheory d t) true ∈ family3 p := by
    unfold family3
    apply mem_flatMap_range hd
    apply mem_flatMap_range ht
    apply List.mem_append_left
    apply List.mem_append_right
    exact mem_bindIndicator_ge hne
  have hc2 : sumEqIf (divTheoryVars p d t 1) 0 (.divBTheory d t) false ∈ family3 p := by
    unfold family3
    apply mem_flatMap_range hd
    apply mem_flatMap_range ht
    apply List.mem_append_left
    apply List.mem_append_right
    exact mem_bindIndicator_eq hne
  exact ⟨fun hi => eval_sumGeIf.1 (sat_f3 h hc1) hi,
    fun hi => eval_sumEqIf.1 (sat_f3 h hc2) hi⟩

lemma divAPrac_bind {p : Problem} {σ : Var → Bool} (h : satisfies p σ = true)
    {d t : Nat} (hd : d < 5) (ht : t < 7) (hne : divPracticalVars p d t 0 ≠ []) :
    (σ (.divAPrac d t) = true → 1 ≤ sumvars σ (divPracticalVars p d t 0)) ∧
    (σ (.divAPrac d t) = false → sumvars σ (divPracticalVars p d t 0) = 0) := by
  have hc1 : sumGeIf (divPracticalVars p d t 0) 1 (.divAPrac d t) true ∈ family3 p := by
    unfold family3
    apply mem_flatMap_range hd
    apply mem_flatMap_range ht
    apply List.mem_append_left
    apply List.mem_append_left
    apply List.mem_append_left
    apply List.mem_append_left
    exact mem_bindIndicator_ge hne
  have hc2 : sumEqIf (divPracticalVars p d t 0) 0 (.divAPrac d t) false ∈ family3 p := by
    unfold family3
    apply mem_flatMap_range hd
    apply mem_flatMap_range ht
    apply List.mem_append_left
    apply List.mem_append_left
    apply List.mem_append_left
    apply List.mem_append_left
    exact mem_bindIndicator_eq hne
  exact ⟨fun hi => eval_sumGeIf.1 (sat_f3 h hc1) hi,
    fun hi => eval_sumEqIf.1 (sat_f3 h hc2) hi⟩

lemma divBPrac_bind {p : Problem} {σ : Var → Bool} (h : satisfies p σ = true)
    {d t : Nat} (hd : d < 5) (ht : t < 7) (hne : divPracticalVars p d t 1 ≠ []) :
    (σ (.divBPrac d t) = true → 1 ≤ sumvars σ (divPracticalVars p d t 1)) ∧
    (σ (.divBPrac d t) = false → sumvars σ (divPracticalVars p d t 1) = 0) := by
  have hc1 : sumGeIf (divPracticalVars p d t 1) 1 (.divBPrac d t) true ∈ family3 p := by
    unfold family3
    apply mem_flatMap_range hd
    apply mem_flatMap_range ht
    apply List.mem_append_left
    apply List.mem_append_left
    apply List.mem_append_left
    apply List.mem_append_right
    exact mem_bindIndicator_ge hne
  have hc2 : sumEqIf (divPracticalVars p d t 1) 0 (.divBPrac d t) false ∈ family3 p := by
    unfold family3
    apply mem_flatMap_range hd
    apply mem_flatMap_range ht
    apply List.mem_append_left
    apply List.mem_append_left
    apply List.mem_append_left
    apply List.mem_append_right
    exact mem_bindIndicator_eq hne
  exact ⟨fun hi => eval_sumGeIf.1 (sat_f3 h hc1) hi,
    fun hi => eval_sumEqIf.1 (sat_f3 h hc2) hi⟩

/-- Upgrade a one-directional indicator binding pair to the bidirectional
form: the indicator is true exactly when the underlying sum is at least 1,
and a false indicator forces the sum to 0. -/
lemma bind_iff_of_bind {σ : Var → Bool} {ind : Var} {vs : List Var}
    (hb : (σ ind = true → 1 ≤ sumvars σ vs) ∧ (σ ind = false → sumvars σ vs = 0)) :
    (σ ind = true ↔ 1 ≤ sumvars σ vs) ∧ (σ ind = false → sumvars σ vs = 0) := by
  refine ⟨⟨hb.1, ?_⟩, hb.2⟩
  intro hsum
  cases hx : σ ind with
  | true => rfl
  | false =>
    have h0 := hb.2 hx
    omega

lemma teacher_busy_ge {p : Problem} {σ : Var → Bool} (h : satisfies p σ = true)
    {tid : String} {subjs : List String} {d t : Nat} {v : Var}
    (hm : (tid, subjs) ∈ p.teachers) (hd : d < 5) (ht : t < 7)
    (hv : v ∈ teacherSubjectsVars p subjs d t) :
    boolToInt (σ v) ≤ boolToInt (σ (.teacherV tid d t)) := by
  have hne : teacherSubjectsVars p subjs d t ≠ [] := List.ne_nil_of_mem hv
  have hc : geVar (.teacherV tid d t) v ∈ family5 p := by
    unfold family5
    apply mem_flatMap_range hd
    apply mem_flatMap_range ht
    apply mem_flatMap_of hm
    apply mem_guard hne
    apply List.mem_append_left
    exact List.mem_map.2 ⟨v, hv, rfl⟩
  exact eval_geVar.1 (sat_f5 h hc)

lemma teacher_busy_scale {p : Problem} {σ : Var → Bool} (h : satisfies p σ = true)
    {tid : String} {subjs : List String} {d t : Nat}
    (hm : (tid, subjs) ∈ p.teachers) (hd : d < 5) (ht : t < 7)
    (hne : teacherSubjectsVars p subjs d t ≠ []) :
    sumvars σ (teacherSubjectsVars p subjs d t) ≤
      ((teacherSubjectsVars p subjs d t).length : Int) *
        boolToInt (σ (.teacherV tid d t)) := by
  have hc : sumLeScaled (teacherSubjectsVars p subjs d t) (.teacherV tid d t) ∈ family5 p := by
    unfold family5
    apply mem_flatMap_range hd
    apply mem_flatMap_range ht
    apply mem_flatMap_of hm
    apply mem_guard hne
    apply List.mem_append_right
    exact List.mem_singleton_self _
  exact eval_sumLeScaled.1 (sat_f5 h hc)

lemma teacher_rest {p : Problem} {σ : Var → Bool} (h : satisfies p σ = true)
    {tid : String} {subjs : List String} {d i : Nat}
    (hm : (tid, subjs) ∈ p.teachers) (hd : d < 5) (hi : i < 6) (hne : i ≠ 2) :
    boolToInt (σ (.teacherV tid d i)) + boolToInt (σ (.teacherV tid d (i + 1))) ≤ 1 := by
  have hc : pairLe (.teacherV tid d i) (.teacherV tid d (i + 1)) ∈ family6 p := by
    unfold family6
    apply mem_flatMap_range hd
    apply mem_flatMap_of hm
    apply mem_flatMap_range hi
    rw [if_neg hne]
    exact List.mem_singleton.2 rfl
  exact eval_pairLe.1 (sat_f6 h hc)

lemma batch_bind {p : Problem} {σ : Var → Bool} (h : satisfies p σ = true)
    {s : String} {i : SubjectInfo} {dv d t : Nat} {b : String}
    (hm : (s, i) ∈ p.subjects) (hp : 0 < i.practical_per_week)
    (hd : d < 5) (ht : t < 7) (hdv : dv < 2) (hb : b ∈ batches)
    (hne : batchLabVars s i dv d t b ≠ []) :
    (σ (.batchScheduled b d t dv s) = true →
      1 ≤ sumvars σ (batchLabVars s i dv d t b)) ∧
    (σ (.batchScheduled b d t dv s) = false →
      sumvars σ (batchLabVars s i dv d t b) = 0) := by
  have hc1 : sumGeIf (batchLabVars s i dv d t b) 1
      (.batchScheduled b d t dv s) true ∈ family7 p := by
    unfold family7
    apply mem_flatMap_range hd
    apply mem_flatMap_range ht
    apply mem_flatMap_range hdv
    apply mem_flatMap_of hm
    apply mem_if_pos hp
    apply List.mem_append_left
    apply mem_flatMap_of hb
    exact mem_bindIndicator_ge hne
  have hc2 : sumEqIf (batchLabVars s i dv d t b) 0
      (.batchScheduled b d t dv s) false ∈ family7 p := by
    unfold family7
    apply mem_flatMap_range hd
    apply mem_flatMap_range ht
    apply mem_flatMap_range hdv
    apply mem_flatMap_of hm
    apply mem_if_pos hp
    apply List.mem_append_left
    apply mem_flatMap_of hb
    exact mem_bindIndicator_eq hne
  exact ⟨fun hi => eval_sumGeIf.1 (sat_f7 h hc1) hi,
    fun hi => eval_sumEqIf.1 (sat_f7 h hc2) hi⟩

lemma batchVars_eq (s : String) (i : SubjectInfo) (dv d t : Nat)
    (hlabs : i.preferred_labs ≠ []) :
    batchVars s i dv d t =
      [.batchScheduled "P" d t dv s, .batchScheduled "Q" d t dv s,
       .batchScheduled "R" d t dv s] := by
  unfold batchVars batches
  rw [List.flatMap_cons, List.flatMap_cons, List.flatMap_cons, List.flatMap_nil,
    if_neg (batchLabVars_ne_nil s i dv d t "P" hlabs),
    if_neg (batchLabVars_ne_nil s i dv d t "Q" hlabs),
    if_neg (batchLabVars_ne_nil s i dv d t "R" hlabs)]
  rfl

lemma mem_batchEqCons (s : String) (i : SubjectInfo) (dv d t : Nat)
    (hlabs : i.preferred_labs ≠ []) :
    eqVars (.batchScheduled "P" d t dv s) (.batchScheduled "Q" d t dv s) ∈
        batchEqCons s i dv d t ∧
    eqVars (.batchScheduled "P" d t dv s) (.batchScheduled "R" d t dv s) ∈
        batchEqCons s i dv d t := by
  unfold batchEqCons
  rw [batchVars_eq s i dv d t hlabs]
  simp

lemma batch_pairwise_eq {p : Problem} {σ : Var → Bool} (h : satisfies p σ = true)
    {s : String} {i : SubjectInfo} {dv d t : Nat}
    (hm : (s, i) ∈ p.subjects) (hp : 0 < i.practical_per_week)
    (hd : d < 5) (ht : t < 7) (hdv : dv < 2) (hlabs : i.preferred_labs ≠ []) :
    σ (.batchScheduled "P" d t dv s) = σ (.batchScheduled "Q" d t dv s) ∧
    σ (.batchScheduled "P" d t dv s) = σ (.batchScheduled "R" d t dv s) := by
  have hc1 : eqVars (.batchScheduled "P" d t dv s) (.batchScheduled "Q" d t dv s) ∈
      family7 p := by
    unfold family7
    apply mem_flatMap_range hd
    apply mem_flatMap_range ht
    apply mem_flatMap_range hdv
    apply mem_flatMap_of hm
    apply mem_if_pos hp
    apply List.mem_append_right
    exact (mem_batchEqCons s i dv d t hlabs).1
  have hc2 : eqVars (.batchScheduled "P" d t dv s) (.batchScheduled "R" d t dv s) ∈
      family7 p := by
    unfold family7
    apply mem_flatMap_range hd
    apply mem_flatMap_range ht
    apply mem_flatMap_range hdv
    apply mem_flatMap_of hm
    apply mem_if_pos hp
    apply List.mem_append_right
    exact (mem_batchEqCons s i dv d t hlabs).2
  exact ⟨eval_eqVars.1 (sat_f7 h hc1), eval_eqVars.1 (sat_f7 h hc2)⟩

/-! The central interaction: slot exclusivity (family 1) counts every
`(batch, lab)` practical variable separately, while batch atomicity
(family 7) forces all three batches of a scheduled practical at once, so no
practical variable can ever be true in a satisfying assignment. -/

lemma practical_var_false {p : Problem} {σ : Var → Bool} (h : satisfies p σ = true)
    {d t dv : Nat} {s : String} {i : SubjectInfo} {b l : String}
    (hd : d < 5) (ht : t < 7) (hdv : dv < 2) (hm : (s, i) ∈ p.subjects)
    (hp : 0 < i.practical_per_week) (hb : b ∈ batches) (hl : l ∈ i.preferred_labs) :
    σ (.practicalV d t dv s b l) = false := by
  cases hσ : σ (.practicalV d t dv s b l) with
  | false => rfl
  | true =>
    exfalso
    have hlabs : i.preferred_labs ≠ [] := List.ne_nil_of_mem hl
    have hbb : σ (.batchScheduled b d t dv s) = true := by
      cases hx : σ (.batchScheduled b d t dv s) with
      | true => rfl
      | false =>
        have h0 := (batch_bind h hm hp hd ht hdv hb
          (batchLabVars_ne_nil s i dv d t b hlabs)).2 hx
        have h1 : 1 ≤ sumvars σ (batchLabVars s i dv d t b) :=
          one_le_sumvars σ (List.mem_map.2 ⟨l, hl, rfl⟩) hσ
        omega
    have heq := batch_pairwise_eq h hm hp hd ht hdv hlabs
    have hbS : ∀ b' ∈ batches, σ (.batchScheduled b' d t dv s) = true := by
      have hP : σ (.batchScheduled "P" d t dv s) = true := by
        rcases (show b = "P" ∨ b = "Q" ∨ b = "R" by simpa [batches] using hb) with
          rfl | rfl | rfl
        · exact hbb
        · rw [heq.1]
          exact hbb
        · rw [heq.2]
          exact hbb
      intro b' hb'
      rcases (show b' = "P" ∨ b' = "Q" ∨ b' = "R" by simpa [batches] using hb') with
        rfl | rfl | rfl
      · exact hP
      · rw [← heq.1]
        exact hP
      · rw [← heq.2]
        exact hP
    have hex : ∀ b' ∈ batches,
        ∃ l', l' ∈ i.preferred_labs ∧ σ (.practicalV d t dv s b' l') = true := by
      intro b' hb'
      have h1 := (batch_bind h hm hp hd ht hdv hb'
        (batchLabVars_ne_nil s i dv d t b' hlabs)).1 (hbS b' hb')
      obtain ⟨w, hw, hwt⟩ := exists_true_of_one_le h1
      obtain ⟨l', hl', rfl⟩ := List.mem_map.1 hw
      exact ⟨l', hl', hwt⟩
    obtain ⟨lP, hlP, hPt⟩ := hex "P" (by simp [batches])
    obtain ⟨lQ, hlQ, hQt⟩ := hex "Q" (by simp [batches])
    obtain ⟨lR, hlR, hRt⟩ := hex "R" (by simp [batches])
    have m1 : Var.practicalV d t dv s "P" lP ∈ slotActivities p d t dv :=
      practicalV_mem_slotActivities hm hp (show "P" ∈ batches by simp [batches]) hlP
    have m2 : Var.practicalV d t dv s "Q" lQ ∈ slotActivities p d t dv :=
      practicalV_mem_slotActivities hm hp (show "Q" ∈ batches by simp [batches]) hlQ
    have m3 : Var.practicalV d t dv s "R" lR ∈ slotActivities p d t dv :=
      practicalV_mem_slotActivities hm hp (show "R" ∈ batches by simp [batches]) hlR
    have d1 : Var.practicalV d t dv s "P" lP ≠ Var.practicalV d t dv s "Q" lQ := by
      intro hcontra
      injection hcontra with e1 e2 e3 e4 e5 e6
      exact absurd e5 (by decide)
    have d2 : Var.practicalV d t dv s "P" lP ≠ Var.practicalV d t dv s "R" lR := by
      intro hcontra
      injection hcontra with e1 e2 e3 e4 e5 e6
      exact absurd e5 (by decide)
    have d3 : Var.practicalV d t dv s "Q" lQ ≠ Var.practicalV d t dv s "R" lR := by
      intro hcontra
      injection hcontra with e1 e2 e3 e4 e5 e6
      exact absurd e5 (by decide)
    have hsum := three_le_sumvars m1 m2 m3 d1 d2 d3 hPt hQt hRt
    have hle := slot_exclusivity h hd ht hdv
    omega

/-- Consequence: a satisfying assignment can only exist when every subject
with a practical requirement has an empty preferred-lab list (otherwise the
weekly practical load constraint needs a true indicator, the indicator needs
a true practical variable, and no practical variable can be true). -/
lemma practical_needs_no_labs {p : Problem} {σ : Var → Bool}
    (h : satisfies p σ = true) {s : String} {i : SubjectInfo}
    (hm : (s, i) ∈ p.subjects) (hp : 0 < i.practical_per_week) :
    i.preferred_labs = [] := by
  by_contra hlabs
  have hpsv : practicalSlotVars s i 0 0 0 ≠ [] :=
    practicalSlotVars_ne_nil s i 0 0 0 hlabs
  have hpl : practicalLectures s i 0 ≠ [] := by
    apply List.ne_nil_of_mem
    exact mem_flatMap_range (show 0 < 5 by omega)
      (mem_flatMap_range (show 0 < 7 by omega) (mem_guard_singleton hpsv _))
  have hload := prac_load h hm (show (0 : Nat) < 2 by omega) hp hpl
  have h1 : (1 : Int) ≤ sumvars σ (practicalLectures s i 0) := by
    have hcast : (1 : Int) ≤ (i.practical_per_week : Int) := by exact_mod_cast hp
    omega
  obtain ⟨v, hv, hvt⟩ := exists_true_of_one_le h1
  obtain ⟨d, hd, t, ht, hne, rfl⟩ := mem_practicalLectures_inv hv
  have hbind := (prac_bind h hm (show (0 : Nat) < 2 by omega) hp hd ht hne).1 hvt
  obtain ⟨w, hw, hwt⟩ := exists_true_of_one_le hbind
  obtain ⟨b, hb, l, hl, rfl⟩ := mem_practicalSlotVars_inv hw
  have hfalse := practical_var_false h hd ht (show (0 : Nat) < 2 by omega) hm hp hb hl
  rw [hfalse] at hwt
  exact Bool.false_ne_true hwt

/-! Concrete satisfying assignments, checked by evaluation. -/

lemma sigma3_sat : satisfies theoryP sigma3 = true := by decide

lemma sigma4_sat : satisfies theoryP sigma4 = true := by decide

lemma sigma8_sat : satisfies theoryP sigma8 = true := by decide

lemma sigma9_sat : satisfies theoryP sigma9 = true := by decide

/-! The claims. -/

/-- Claim C1: the spec expects the end-to-end scenario (one lab L1, one
subject DS with theory 2 / practical 1 / preferred lab L1, one teacher) to
be FEASIBLE.  In fact the constraint set emitted for this scenario is
unsatisfiable: no assignment whatsoever satisfies it, so the solver can
only report INFEASIBLE. -/
theorem C1_scenario_unsat (σ : Var → Bool) : satisfies scenarioP σ = false := by
  cases hs : satisfies scenarioP σ with
  | false => rfl
  | true =>
    exfalso
    have hm : ("DS", (⟨2, 1, ["L1"]⟩ : SubjectInfo)) ∈ scenarioP.subjects := by decide
    have hempty := practical_needs_no_labs hs hm (by decide)
    exact absurd hempty (by decide)

/-- Claim C2: in every satisfying assignment of the emitted constraint set,
every practical decision variable is false (slot exclusivity counts each
`(batch, lab)` variable separately while batch atomicity forces all three
batches at once); consequently a subject with `practical_per_week > 0` can
only coexist with a satisfying assignment when its preferred-lab list is
empty, i.e. the constraint set of any problem with a practical-requiring
subject with a non-empty lab list is unsatisfiable. -/
theorem C2_practicals_impossible (p : Problem) (σ : Var → Bool)
    (h : satisfies p σ = true) :
    (∀ (d t dv : Nat) (s : String) (i : SubjectInfo) (b l : String),
      d < 5 → t < 7 → dv < 2 → (s, i) ∈ p.subjects →
      0 < i.practical_per_week → b ∈ batches → l ∈ i.preferred_labs →
      σ (.practicalV d t dv s b l) = false) ∧
    (∀ (s : String) (i : SubjectInfo), (s, i) ∈ p.subjects →
      0 < i.practical_per_week → i.preferred_labs = []) := by
  constructor
  · intro d t dv s i b l hd ht hdv hm hp hb hl
    exact practical_var_false h hd ht hdv hm hp hb hl
  · intro s i hm hp
    exact practical_needs_no_labs h hm hp

theorem C2_practicals_impossible_witness :
    satisfies theoryP sigma3 = true ∧
    ((∀ (d t dv : Nat) (s : String) (i : SubjectInfo) (b l : String),
      d < 5 → t < 7 → dv < 2 → (s, i) ∈ theoryP.subjects →
      0 < i.practical_per_week → b ∈ batches → l ∈ i.preferred_labs →
      sigma3 (.practicalV d t dv s b l) = false) ∧
    (∀ (s : String) (i : SubjectInfo), (s, i) ∈ theoryP.subjects →
      0 < i.practical_per_week → i.preferred_labs = [])) :=
  ⟨sigma3_sat, C2_practicals_impossible theoryP sigma3 sigma3_sat⟩

/-- Claim C3 (counterexample): a satisfying assignment in which two
activity variables of subjects taught by teacher T1 — the DS theory of
division 0 and the DS theory of division 1 — are both true in the same slot
(day 0, slot 0).  The emitted constraints do not prevent a teacher from
being double-booked across divisions. -/
theorem C3_double_booking :
    satisfies theoryP sigma3 = true ∧
    ("T1", ["DS"]) ∈ theoryP.teachers ∧
    Var.theoryV 0 0 0 "DS" ∈ teacherSubjectsVars theoryP ["DS"] 0 0 ∧
    Var.theoryV 0 0 1 "DS" ∈ teacherSubjectsVars theoryP ["DS"] 0 0 ∧
    Var.theoryV 0 0 0 "DS" ≠ Var.theoryV 0 0 1 "DS" ∧
    sigma3 (.theoryV 0 0 0 "DS") = true ∧
    sigma3 (.theoryV 0 0 1 "DS") = true :=
  ⟨sigma3_sat, by decide, by decide, by decide, by decide, by decide, by decide⟩

/-- Claim C3 (amended): the teacher constraints only link activities to the
busy indicator: whenever an activity variable of a subject taught by the
teacher is true in a slot, the busy indicator of that slot is true; the
number of simultaneous activities of one teacher is not bounded. -/
theorem C3_activity_implies_busy (p : Problem) (σ : Var → Bool)
    (h : satisfies p σ = true) (tid : String) (subjs : List String)
    (hm : (tid, subjs) ∈ p.teachers) (d t : Nat) (hd : d < 5) (ht : t < 7)
    (v : Var) (hv : v ∈ teacherSubjectsVars p subjs d t) (hvt : σ v = true) :
    σ (.teacherV tid d t) = true := by
  have hge := teacher_busy_ge h hm hd ht hv
  rw [hvt] at hge
  have h1 : (1 : Int) ≤ boolToInt (σ (.teacherV tid d t)) := by
    have e : boolToInt true = 1 := rfl
    omega
  exact one_le_boolToInt.1 h1

theorem C3_activity_implies_busy_witness :
    satisfies theoryP sigma3 = true ∧ sigma3 (.teacherV "T1" 0 0) = true :=
  ⟨sigma3_sat, C3_activity_implies_busy theoryP sigma3 sigma3_sat "T1" ["DS"]
    (by decide) 0 0 (by decide) (by decide) (.theoryV 0 0 0 "DS") (by decide) (by decide)⟩

/-- Claim C4 (counterexample): a satisfying assignment in which the teacher
busy indicator of (day 0, slot 5) is true although every activity variable
of a subject taught by that teacher in that slot is false: the indicator is
only lower-bounded by the activities, not a tight OR. -/
theorem C4_busy_spurious :
    satisfies theoryP sigma4 = true ∧
    ("T1", ["DS"]) ∈ theoryP.teachers ∧
    sigma4 (.teacherV "T1" 0 5) = true ∧
    (∀ v ∈ teacherSubjectsVars theoryP ["DS"] 0 5, sigma4 v = false) :=
  ⟨sigma4_sat, by decide, by decide, by decide⟩

/-- Claim C4 (amended): only one direction of the claimed equivalence holds:
if the busy indicator of a slot is false, every activity variable of a
subject taught by that teacher in that slot is false (hence a true activity
forces the indicator true); the indicator may be spuriously true. -/
theorem C4_busy_false_forces_idle (p : Problem) (σ : Var → Bool)
    (h : satisfies p σ = true) (tid : String) (subjs : List String)
    (hm : (tid, subjs) ∈ p.teachers) (d t : Nat) (hd : d < 5) (ht : t < 7)
    (hbusy : σ (.teacherV tid d t) = false) :
    ∀ v ∈ teacherSubjectsVars p subjs d t, σ v = false := by
  intro v hv
  have hne : teacherSubjectsVars p subjs d t ≠ [] := List.ne_nil_of_mem hv
  have hsc := teacher_busy_scale h hm hd ht hne
  rw [hbusy] at hsc
  have h0 : sumvars σ (teacherSubjectsVars p subjs d t) ≤ 0 := by
    have e : boolToInt false = 0 := rfl
    rw [e, mul_zero] at hsc
    exact hsc
  exact all_false_of_sumvars_le_zero h0 v hv

theorem C4_busy_false_forces_idle_witness :
    satisfies theoryP sigma4 = true ∧ sigma4 (.teacherV "T1" 0 1) = false ∧
    (∀ v ∈ teacherSubjectsVars theoryP ["DS"] 0 1, sigma4 v = false) :=
  ⟨sigma4_sat, by decide, C4_busy_false_forces_idle theoryP sigma4 sigma4_sat
    "T1" ["DS"] (by decide) 0 1 (by decide) (by decide) (by decide)⟩

/-- Claim C5 (counterexample): variable creation does not fail on the inputs
the claim says it must reject.  For a subject with zero theory and zero
practical requirement it silently creates the same variables as if the
subject were absent (here: the 35 teacher indicators), and likewise for a
subject requiring practicals with an empty preferred-lab list — decision
variables are created and no configuration error exists. -/
theorem C5_no_config_error :
    (("ZZ", (⟨0, 0, []⟩ : SubjectInfo)) ∈ zeroReqP.subjects ∧
      create_decision_variables zeroReqP = create_decision_variables noSubjectP ∧
      (create_decision_variables zeroReqP).length = 35) ∧
    (("YY", (⟨0, 1, []⟩ : SubjectInfo)) ∈ noLabP.subjects ∧
      0 < (⟨0, 1, ([] : List String)⟩ : SubjectInfo).practical_per_week ∧
      (⟨0, 1, ([] : List String)⟩ : SubjectInfo).preferred_labs = [] ∧
      (create_decision_variables noLabP).length = 35) := by
  exact ⟨⟨by decide, by decide, by decide⟩, by decide, by decide, by decide, by decide⟩

/-- Claim C5 (amended): `create_decision_variables` performs no validation
and never fails: it is a total function whose output contains a practical
variable for a subject only when that subject has a practical requirement
and the lab is in its (hence non-empty) preferred-lab list, and a theory
variable only when the subject has a theory requirement — bad subjects
simply contribute no variables instead of raising a configuration error. -/
theorem C5_creation_total (p : Problem) (d t dv : Nat) (s b l : String) :
    (Var.practicalV d t dv s b l ∈ create_decision_variables p →
      ∃ i, (s, i) ∈ p.subjects ∧ 0 < i.practical_per_week ∧
        l ∈ i.preferred_labs ∧ b ∈ batches) ∧
    (Var.theoryV d t dv s ∈ create_decision_variables p →
      ∃ i, (s, i) ∈ p.subjects ∧ 0 < i.theory_per_week) := by
  constructor
  · intro h
    rcases List.mem_append.1 h with h1 | h2
    · obtain ⟨d2, hd2, h1⟩ := List.mem_flatMap.1 h1
      obtain ⟨t2, ht2, h1⟩ := List.mem_flatMap.1 h1
      obtain ⟨dv2, hdv2, h1⟩ := List.mem_flatMap.1 h1
      obtain ⟨si, hsi, h1⟩ := List.mem_flatMap.1 h1
      rcases mem_subjectSlotVars_inv h1 with ⟨hth, heq⟩ | ⟨hp2, b2, hb2, l2, hl2, heq⟩
      · simp at heq
      · injection heq with e1 e2 e3 e4 e5 e6
        refine ⟨si.2, ?_, hp2, ?_, ?_⟩
        · rw [e4, Prod.mk.eta]
          exact hsi
        · rw [e6]
          exact hl2
        · rw [e5]
          exact hb2
    · obtain ⟨d2, hd2, h2⟩ := List.mem_flatMap.1 h2
      obtain ⟨t2, ht2, h2⟩ := List.mem_flatMap.1 h2
      obtain ⟨te, hte, heq⟩ := List.mem_map.1 h2
      simp at heq
  · intro h
    rcases List.mem_append.1 h with h1 | h2
    · obtain ⟨d2, hd2, h1⟩ := List.mem_flatMap.1 h1
      obtain ⟨t2, ht2, h1⟩ := List.mem_flatMap.1 h1
      obtain ⟨dv2, hdv2, h1⟩ := List.mem_flatMap.1 h1
      obtain ⟨si, hsi, h1⟩ := List.mem_flatMap.1 h1
      rcases mem_subjectSlotVars_inv h1 with ⟨hth, heq⟩ | ⟨hp2, b2, hb2, l2, hl2, heq⟩
      · injection heq with e1 e2 e3 e4
        refine ⟨si.2, ?_, hth⟩
        rw [e4, Prod.mk.eta]
        exact hsi
      · simp at heq
    · obtain ⟨d2, hd2, h2⟩ := List.mem_flatMap.1 h2
      obtain ⟨t2, ht2, h2⟩ := List.mem_flatMap.1 h2
      obtain ⟨te, hte, heq⟩ := List.mem_map.1 h2
      simp at heq

theorem C5_creation_total_witness :
    Var.practicalV 0 0 0 "DS" "P" "L1" ∈ create_decision_variables scenarioP ∧
    (∃ i, ("DS", i) ∈ scenarioP.subjects ∧ 0 < i.practical_per_week ∧
      "L1" ∈ i.preferred_labs ∧ "P" ∈ batches) :=
  ⟨by decide, (C5_creation_total scenarioP 0 0 0 "DS" "P" "L1").1 (by decide)⟩

/-- Claim C6 (counterexample): an assignment with two true activity
variables for the same (day 0, slot 0, division 0) cell — the theory
variables of AA and of BB.  Extraction does not fail: it silently returns
a cell, with the subject iterated last (BB) winning. -/
theorem C6_extraction_silent :
    sigma6 (.theoryV 0 0 0 "AA") = true ∧
    sigma6 (.theoryV 0 0 0 "BB") = true ∧
    Var.theoryV 0 0 0 "AA" ∈ create_decision_variables twoSubjP ∧
    Var.theoryV 0 0 0 "BB" ∈ create_decision_variables twoSubjP ∧
    extract_cell twoSubjP sigma6 0 0 0 = some ⟨"BB", "Theory", some "T1", []⟩ := by
  exact ⟨by decide, by decide, by decide, by decide, by decide⟩

/-- Claim C6 (amended): solution extraction never raises a decoding error;
when several activity variables of one cell are true the subject checked
last overwrites the earlier ones and a normal cell is returned. -/
theorem C6_extract_last_wins (s1 s2 : String) (i1 i2 : SubjectInfo)
    (tm : List (String × String)) (teach : List (String × List String))
    (labs : List String) (σ : Var → Bool)
    (h1 : 0 < i2.theory_per_week) (h2 : σ (.theoryV 0 0 0 s2) = true)
    (hp : i2.practical_per_week = 0) :
    extract_cell ⟨[(s1, i1), (s2, i2)], teach, labs, tm⟩ σ 0 0 0 =
      some ⟨s2, "Theory", List.lookup s2 tm, []⟩ := by
  unfold extract_cell
  simp [h1, h2, hp]

theorem C6_extract_last_wins_witness :
    (0 < (1 : Nat) ∧ sigma6 (.theoryV 0 0 0 "BB") = true ∧ (0 : Nat) = 0) ∧
    extract_cell twoSubjP sigma6 0 0 0 =
      some ⟨"BB", "Theory", List.lookup "BB" [("AA", "T1"), ("BB", "T1")], []⟩ :=
  ⟨⟨by decide, by decide, rfl⟩,
    C6_extract_last_wins "AA" "BB" ⟨1, 0, []⟩ ⟨1, 0, []⟩
      [("AA", "T1"), ("BB", "T1")] [("T1", ["AA", "BB"])] [] sigma6
      (by decide) (by decide) rfl⟩

/-- Claim C7 (counterexample): the outcome reported for an UNKNOWN solve
status is exactly the outcome reported for INFEASIBLE — the same `False`
result with the same failure message — so a timeout is presented to the
caller identically to "no solution exists". -/
theorem C7_unknown_conflated :
    solve_outcome CpSolverStatus.unknown = solve_outcome CpSolverStatus.infeasible ∧
    solve_outcome CpSolverStatus.unknown =
      (false, "Could not generate a valid timetable with given constraints.") :=
  ⟨rfl, rfl⟩

/-- Claim C7 (amended): `solve_timetable` distinguishes only success from
non-success: OPTIMAL/FEASIBLE report success, and INFEASIBLE and UNKNOWN
both report the identical failure outcome. -/
theorem C7_failure_uniform :
    (solve_outcome CpSolverStatus.optimal).1 = true ∧
    (solve_outcome CpSolverStatus.feasible).1 = true ∧
    (solve_outcome CpSolverStatus.infeasible).1 = false ∧
    (solve_outcome CpSolverStatus.unknown).1 = false ∧
    (solve_outcome CpSolverStatus.unknown).2 =
      (solve_outcome CpSolverStatus.infeasible).2 :=
  ⟨rfl, rfl, rfl, rfl, rfl⟩

/-- Claim C8: for every teacher of the problem, every day and every adjacent
slot pair `(i, i+1)` with `i ≠ 2`, every satisfying assignment has at most
one of the two busy indicators set; and the pair `(2, 3)` spanning the break
is genuinely unconstrained: a satisfying assignment exists with both busy
indicators of slots 2 and 3 true. -/
theorem C8_teacher_rest_rule (p : Problem) (σ : Var → Bool)
    (h : satisfies p σ = true) (tid : String) (subjs : List String)
    (hm : (tid, subjs) ∈ p.teachers) (d i : Nat) (hd : d < 5) (hi : i < 6)
    (hne : i ≠ 2) :
    (boolToInt (σ (.teacherV tid d i)) + boolToInt (σ (.teacherV tid d (i + 1))) ≤ 1) ∧
    (satisfies theoryP sigma8 = true ∧ sigma8 (.teacherV "T1" 0 2) = true ∧
      sigma8 (.teacherV "T1" 0 3) = true) :=
  ⟨teacher_rest h hm hd hi hne, sigma8_sat, by decide, by decide⟩

theorem C8_teacher_rest_rule_witness :
    (boolToInt (sigma8 (.teacherV "T1" 0 0)) +
      boolToInt (sigma8 (.teacherV "T1" 0 1)) ≤ 1) ∧
    (satisfies theoryP sigma8 = true ∧ sigma8 (.teacherV "T1" 0 2) = true ∧
      sigma8 (.teacherV "T1" 0 3) = true) :=
  C8_teacher_rest_rule theoryP sigma8 sigma8_sat "T1" ["DS"] (by decide)
    0 0 (by decide) (by decide) (by decide)

/-- Claim C9 (counterexample): a satisfying assignment in which the
division-A-has-practical indicator of slot (0,0) is true although the
underlying practical variable list of that slot is empty (sum 0): the four
indicators are bound only when their variable list is non-empty, so the
claimed bidirectional binding (true iff sum of underlying variables at
least 1) fails. -/
theorem C9_indicator_unbound :
    satisfies theoryP sigma9 = true ∧
    sigma9 (.divAPrac 0 0) = true ∧
    divPracticalVars theoryP 0 0 0 = [] ∧
    sumvars sigma9 (divPracticalVars theoryP 0 0 0) = 0 :=
  ⟨sigma9_sat, by decide, by decide, by decide⟩

/-- Claim C9 (amended): the two cross-division implications always hold
(A-has-practical implies B-has-theory and symmetrically); each of the four
per-slot indicators is bidirectionally bound to its underlying variables
when the corresponding variable list is non-empty — true iff the underlying
sum is at least 1, and a false indicator forces the sum to 0 — while an
indicator over an empty variable list is left unconstrained (see the
counterexample); and no constraint forces an activity to exist in every
slot for every division: a satisfying assignment exists in which both
divisions are completely free in slot (day 1, slot 0). -/
theorem C9_mutual_exclusion (p : Problem) (σ : Var → Bool)
    (h : satisfies p σ = true) (d t : Nat) (hd : d < 5) (ht : t < 7) :
    (σ (.divAPrac d t) = true → σ (.divBTheory d t) = true) ∧
    (σ (.divBPrac d t) = true → σ (.divATheory d t) = true) ∧
    (divPracticalVars p d t 0 ≠ [] →
      (σ (.divAPrac d t) = true ↔ 1 ≤ sumvars σ (divPracticalVars p d t 0)) ∧
      (σ (.divAPrac d t) = false → sumvars σ (divPracticalVars p d t 0) = 0)) ∧
    (divPracticalVars p d t 1 ≠ [] →
      (σ (.divBPrac d t) = true ↔ 1 ≤ sumvars σ (divPracticalVars p d t 1)) ∧
      (σ (.divBPrac d t) = false → sumvars σ (divPracticalVars p d t 1) = 0)) ∧
    (divTheoryVars p d t 0 ≠ [] →
      (σ (.divATheory d t) = true ↔ 1 ≤ sumvars σ (divTheoryVars p d t 0)) ∧
      (σ (.divATheory d t) = false → sumvars σ (divTheoryVars p d t 0) = 0)) ∧
    (divTheoryVars p d t 1 ≠ [] →
      (σ (.divBTheory d t) = true ↔ 1 ≤ sumvars σ (divTheoryVars p d t 1)) ∧
      (σ (.divBTheory d t) = false → sumvars σ (divTheoryVars p d t 1) = 0)) ∧
    (satisfies theoryP sigma3 = true ∧
      (∀ v ∈ slotActivities theoryP 1 0 0, sigma3 v = false) ∧
      (∀ v ∈ slotActivities theoryP 1 0 1, sigma3 v = false)) := by
  refine ⟨div_impl_a h hd ht, div_impl_b h hd ht, ?_, ?_, ?_, ?_,
    sigma3_sat, by decide, by decide⟩
  · intro hne
    exact bind_iff_of_bind (divAPrac_bind h hd ht hne)
  · intro hne
    exact bind_iff_of_bind (divBPrac_bind h hd ht hne)
  · intro hne
    exact bind_iff_of_bind (divATheory_bind h hd ht hne)
  · intro hne
    exact bind_iff_of_bind (divBTheory_bind h hd ht hne)

theorem C9_mutual_exclusion_witness :
    satisfies theoryP sigma9 = true ∧
    ((sigma9 (.divAPrac 0 0) = true → sigma9 (.divBTheory 0 0) = true) ∧
     (sigma9 (.divBPrac 0 0) = true → sigma9 (.divATheory 0 0) = true) ∧
     (divPracticalVars theoryP 0 0 0 ≠ [] →
       (sigma9 (.divAPrac 0 0) = true ↔
         1 ≤ sumvars sigma9 (divPracticalVars theoryP 0 0 0)) ∧
       (sigma9 (.divAPrac 0 0) = false →
         sumvars sigma9 (divPracticalVars theoryP 0 0 0) = 0)) ∧
     (divPracticalVars theoryP 0 0 1 ≠ [] →
       (sigma9 (.divBPrac 0 0) = true ↔
         1 ≤ sumvars sigma9 (divPracticalVars theoryP 0 0 1)) ∧
       (sigma9 (.divBPrac 0 0) = false →
         sumvars sigma9 (divPracticalVars theoryP 0 0 1) = 0)) ∧
     (divTheoryVars theoryP 0 0 0 ≠ [] →
       (sigma9 (.divATheory 0 0) = true ↔
         1 ≤ sumvars sigma9 (divTheoryVars theoryP 0 0 0)) ∧
       (sigma9 (.divATheory 0 0) = false →
         sumvars sigma9 (divTheoryVars theoryP 0 0 0) = 0)) ∧
     (divTheoryVars theoryP 0 0 1 ≠ [] →
       (sigma9 (.divBTheory 0 0) = true ↔
         1 ≤ sumvars sigma9 (divTheoryVars theoryP 0 0 1)) ∧
       (sigma9 (.divBTheory 0 0) = false →
         sumvars sigma9 (divTheoryVars theoryP 0 0 1) = 0)) ∧
     (satisfies theoryP sigma3 = true ∧
       (∀ v ∈ slotActivities theoryP 1 0 0, sigma3 v = false) ∧
       (∀ v ∈ slotActivities theoryP 1 0 1, sigma3 v = false))) :=
  ⟨sigma9_sat, C9_mutual_exclusion theoryP sigma9 sigma9_sat 0 0 (by decide) (by decide)⟩

/-- Claim C10: minimum weekly load.  For a subject and division, in every
satisfying assignment: when `theory_per_week > 0`, at least that many theory
variables are true across the week; when `practical_per_week > 0` and the
preferred-lab list is non-empty, the per-slot session indicator is bound
bidirectionally (true iff at least one underlying `(batch, lab)` variable of
the slot is true) and the indicators across the week sum to at least
`practical_per_week`. -/
theorem C10_minimum_load (p : Problem) (σ : Var → Bool)
    (h : satisfies p σ = true) (s : String) (i : SubjectInfo)
    (hm : (s, i) ∈ p.subjects) (dv : Nat) (hdv : dv < 2) :
    (0 < i.theory_per_week →
      (i.theory_per_week : Int) ≤ sumvars σ (theoryLectures s dv)) ∧
    (0 < i.practical_per_week → i.preferred_labs ≠ [] →
      (∀ d t, d < 5 → t < 7 →
        (σ (.practicalIndicator s dv d t) = true ↔
          1 ≤ sumvars σ (practicalSlotVars s i dv d t))) ∧
      (i.practical_per_week : Int) ≤ sumvars σ (practicalLectures s i dv)) := by
  constructor
  · intro hth
    exact theory_load h hm hdv hth
  · intro hp hlabs
    constructor
    · intro d t hd ht
      have hne := practicalSlotVars_ne_nil s i dv d t hlabs
      have hbind := prac_bind h hm hdv hp hd ht hne
      constructor
      · exact hbind.1
      · intro hsum
        cases hx : σ (.practicalIndicator s dv d t) with
        | true => rfl
        | false =>
          have h0 := hbind.2 hx
          omega
    · have hpl : practicalLectures s i dv ≠ [] := by
        apply List.ne_nil_of_mem
        exact mem_flatMap_range (show 0 < 5 by omega)
          (mem_flatMap_range (show 0 < 7 by omega)
            (mem_guard_singleton (practicalSlotVars_ne_nil s i dv 0 0 hlabs) _))
      exact prac_load h hm hdv hp hpl

theorem C10_minimum_load_witness :
    satisfies theoryP sigma3 = true ∧
    ((0 < (1 : Nat) →
      ((1 : Nat) : Int) ≤ sumvars sigma3 (theoryLectures "DS" 0)) ∧
    (0 < (0 : Nat) → ([] : List String) ≠ [] →
      (∀ d t, d < 5 → t < 7 →
        (sigma3 (.practicalIndicator "DS" 0 d t) = true ↔
          1 ≤ sumvars sigma3 (practicalSlotVars "DS" ⟨1, 0, []⟩ 0 d t))) ∧
      ((0 : Nat) : Int) ≤ sumvars sigma3 (practicalLectures "DS" ⟨1, 0, []⟩ 0))) :=
  ⟨sigma3_sat, C10_minimum_load theoryP sigma3 sigma3_sat "DS" ⟨1, 0, []⟩
    (by decide) 0 (by decide)⟩

end Timetable
